import Mathlib

/-!
# Verification of the Airtable revision-history sync engine

This file gives a shallow embedding, in Lean 4, of the core logic of the
revision-history sync engine found in the repository:

* the HTML-diff parser of `ScrapingService.parseRevisionHistory`
  (`src/services/scraping.service.ts`),
* the per-record fetcher `ScrapingService.fetchRevisionHistory` with its
  404 / 401 / 403 / 429 error mapping and exponential-backoff retries,
* the cookie validator `ScrapingService.validateCookies` and the accessor
  `getOrExtractCookies`,
* the batch orchestrator `ScrapingService.fetchAllRevisionHistory`
  (batching, `Promise.allSettled` result handling, bulk persistence,
  abort on expired credentials),
* the persistence operations used by the routes
  (`findOneAndUpdate` upsert by `pageId`, `bulkWrite`, and the
  insert-if-absent loop of `POST /revision-history/fetch`),
* the secondary implementation in `RevisionHistoryService`
  (`src/services/revision-history.service.ts`), and
* the `POST /fetch-all-revisions` route handler.

Network and DOM effects are modelled by passing the already-received
responses (or already-parsed HTML structure) as explicit data, and the
MongoDB collections are modelled as association lists.  Theorems at the
end of the file settle the frozen claims about this code.
-/

/-! ## String helpers

JavaScript string primitives used by the source, re-implemented over
`List Char` so that every definition evaluates by kernel reduction.
-/

/-- Does the character list start with the pattern `pat`? -/
def beginsWithSeq : List Char → List Char → Bool
  | [], _ => true
  | _ :: _, [] => false
  | p :: ps, c :: cs => p == c && beginsWithSeq ps cs

/-- Does the character list contain `pat` as a contiguous subsequence? -/
def containsSeq (pat : List Char) : List Char → Bool
  | [] => beginsWithSeq pat []
  | c :: rest => beginsWithSeq pat (c :: rest) || containsSeq pat rest

/-- JavaScript `s.includes(pat)`. -/
def jsIncludes (s pat : String) : Bool :=
  containsSeq pat.toList s.toList

/-- JavaScript `s.toLowerCase()` (ASCII case folding suffices for the
labels handled by the source). -/
def strToLower (s : String) : String :=
  String.mk (s.toList.map Char.toLower)

/-- JavaScript `s.trim()`. -/
def strTrim (s : String) : String :=
  String.mk (((s.toList.dropWhile Char.isWhitespace).reverse.dropWhile
    Char.isWhitespace).reverse)

/-- JavaScript `a || b` for an optionally present string `a`: an absent or
empty string is falsy and falls through to `b`. -/
def jsOrS (a : Option String) (b : String) : String :=
  match a with
  | some s => if s == "" then b else s
  | none => b

/-- JavaScript `s || null`: an empty string becomes `null`. -/
def strOrNull (s : String) : Option String :=
  if s == "" then none else some s

/-! ## Data model of the diff parser (`ScrapingService.parseRevisionHistory`)

One activity carries an HTML fragment (`diffRowHtml` / `htmlContent`);
cheerio parses it into `.historicalCellContainer` elements, each holding a
field label, a `columntypeifunchanged` attribute and a list of
`.choiceToken` value tokens.  The embedding starts from that parsed shape:
a `Token` records the data the source reads off one `.choiceToken`
element, a `Container` one `.historicalCellContainer`.
-/

/-- One `.choiceToken` element: the `title` attribute and the text of its
`.truncate-pre` child, the `href` of its `svg use` child (`""` when
absent) and its `style` attribute (`""` when absent). -/
structure Token where
  titleAttr : Option String
  text : String
  href : String
  style : String
deriving Repr, DecidableEq

/-- The mutable `oldValue` / `newValue` pair threaded through the token
loop of the source (both start as `""`). -/
structure ValuePair where
  oldValue : String
  newValue : String
deriving Repr, DecidableEq

/-- One `.historicalCellContainer` element: the text of its
`.micro.strong.caps` field-name child and the `columntypeifunchanged`
attribute of its `.historicalCellValueContainer` child (`""` when
absent), plus its `.choiceToken` children. -/
structure Container where
  fieldName : String
  columnTypeAttr : String
  tokens : List Token
deriving Repr, DecidableEq

/-- One raw activity as assembled by `fetchRevisionHistory` from
`rowActivityInfoById`: id, timestamp, the resolved user object, whether an
HTML fragment is present, whether cheerio throws on it, and the parsed
containers of the fragment. -/
structure Activity where
  id : String
  createdTime : Nat
  userName : Option String
  userEmail : Option String
  hasHtml : Bool
  parseFails : Bool
  containers : List Container
deriving Repr, DecidableEq

/-- A tracked change event, as pushed by `parseRevisionHistory` (and, with
capitalised kinds, by the secondary parser of `RevisionHistoryService`). -/
structure Revision where
  uuid : String
  issueId : String
  columnType : String
  oldValue : Option String
  newValue : Option String
  createdDate : Nat
  authoredBy : String
deriving Repr, DecidableEq

/-- The title of a token:
`$elem.find(".truncate-pre").attr("title") || $elem.find(".truncate-pre").text().trim()`. -/
def tokenTitle (t : Token) : String :=
  jsOrS t.titleAttr (strTrim t.text)

/-- The body of the `choiceTokens.each` loop: bucket one token into the
old/new value pair.  An empty title skips the token; a `Plus` icon href
marks the new value; a `Minus` icon href marks the old value; otherwise a
`line-through` style marks the old value; otherwise the token counts as
the new value. -/
def bucketToken (acc : ValuePair) (t : Token) : ValuePair :=
  let title := tokenTitle t
  if title == "" then acc
  else if jsIncludes t.href "Plus" then { acc with newValue := title }
  else if jsIncludes t.href "Minus" then { acc with oldValue := title }
  else if jsIncludes t.style "line-through" then { acc with oldValue := title }
  else { acc with newValue := title }

/-- The classification performed on one container by the source: the
trimmed lower-cased label must contain `assigned`, `assignee` or
`developer` (giving `assignee`, with priority) or `status` (giving
`status`), and the value-type attribute must equal `select`. -/
def classifyContainer (c : Container) : Option String :=
  let fieldName := strToLower (strTrim c.fieldName)
  let isAssignee := jsIncludes fieldName "assigned" || jsIncludes fieldName "assignee" ||
    jsIncludes fieldName "developer"
  let isStatus := jsIncludes fieldName "status"
  if (isAssignee || isStatus) && (c.columnTypeAttr == "select") then
    some (if isAssignee then "assignee" else "status")
  else none

/-- The revision record pushed for a classified container with at least
one resolved value.  The `Date.now()`/`Math.random()` fallback uuid of the
source is abstracted to a fixed suffix (no claim concerns the uuid). -/
def mkRevision (act : Activity) (pageId columnType : String) (vals : ValuePair) : Revision :=
  { uuid := if act.id == "" then pageId ++ "-fallback-uuid" else act.id
    issueId := pageId
    columnType := columnType
    oldValue := strOrNull vals.oldValue
    newValue := strOrNull vals.newValue
    createdDate := act.createdTime
    authoredBy := jsOrS act.userName (jsOrS act.userEmail "Unknown") }

/-- The body of the `$(".historicalCellContainer").each` loop of
`parseRevisionHistory`: classify the container, bucket its tokens, and
push one revision when the container is an assignee/status select field
and at least one of the values is non-empty. -/
def processContainer (act : Activity) (pageId : String) (c : Container) : List Revision :=
  let fieldName := strToLower (strTrim c.fieldName)
  let isAssignee := jsIncludes fieldName "assigned" || jsIncludes fieldName "assignee" ||
    jsIncludes fieldName "developer"
  let isStatus := jsIncludes fieldName "status"
  let classified := (isAssignee || isStatus) && (c.columnTypeAttr == "select")
  let columnType := if classified then (if isAssignee then "assignee" else "status") else ""
  let vals := if classified then
      c.tokens.foldl bucketToken { oldValue := "", newValue := "" }
    else { oldValue := "", newValue := "" }
  if (columnType == "assignee" || columnType == "status")
      && (!(vals.oldValue == "") || !(vals.newValue == "")) then
    [mkRevision act pageId columnType vals]
  else []

/-- Process one activity: activities without an HTML fragment are skipped
(`continue`), activities whose fragment cheerio cannot parse are caught
and skipped with a logged warning; otherwise every container of the
fragment is processed in order. -/
def parseActivity (pageId : String) (act : Activity) : List Revision :=
  if !act.hasHtml then []
  else if act.parseFails then []
  else act.containers.flatMap (processContainer act pageId)

/-- `ScrapingService.parseRevisionHistory`: all revisions pushed over the
activity list, in order. -/
def parseRevisionHistory (activities : List Activity) (pageId : String) : List Revision :=
  activities.flatMap (parseActivity pageId)

/-! ## Spec-side comparison definitions for the parser -/

/-- Modelled from the spec (§4.3 step 3), for comparison with
`classifyContainer`: a label containing `assign` or `developer` together
with the accepted value-type attribute is classified `Assignee`; a label
containing `status` with the accepted value-type attribute is classified
`Status`; anything else is skipped.  The source accepts exactly the
attribute value `select` for both kinds. -/
def specClassify (c : Container) : Option String :=
  let fieldName := strToLower (strTrim c.fieldName)
  if (jsIncludes fieldName "assign" || jsIncludes fieldName "developer")
      && (c.columnTypeAttr == "select") then some "assignee"
  else if jsIncludes fieldName "status" && (c.columnTypeAttr == "select") then some "status"
  else none

/-- The amended classification rule: like the spec rule, but with the
keywords the source actually matches (`assigned`, `assignee`,
`developer`), and with the assignee keywords taking priority over
`status` when a label contains both. -/
def amendedClassify (c : Container) : Option String :=
  let fieldName := strToLower (strTrim c.fieldName)
  if (c.columnTypeAttr == "select") = false then none
  else if jsIncludes fieldName "assigned" || jsIncludes fieldName "assignee" ||
      jsIncludes fieldName "developer" then some "assignee"
  else if jsIncludes fieldName "status" then some "status"
  else none

/-- Modelled from the spec (§4.3 step 4), for comparison with
`bucketToken`: the polarity of one value token — `none` when the token
has no title, `some true` (added / new value) for a `Plus` icon marker,
`some false` (removed / old value) for a `Minus` icon marker, otherwise
`some false` for a strikethrough style marker, otherwise `some true`. -/
def tokenPolarity (t : Token) : Option Bool :=
  if tokenTitle t == "" then none
  else if jsIncludes t.href "Plus" then some true
  else if jsIncludes t.href "Minus" then some false
  else if jsIncludes t.style "line-through" then some false
  else some true

/-- Updating the value pair according to the polarity of a token: each
assignment overwrites the previously stored value of the same polarity. -/
def applySpecPolarity (acc : ValuePair) (t : Token) : ValuePair :=
  match tokenPolarity t with
  | none => acc
  | some true => { acc with newValue := tokenTitle t }
  | some false => { acc with oldValue := tokenTitle t }

/-! ## The secondary parser and fetcher (`RevisionHistoryService`)

`src/services/revision-history.service.ts` contains an independent
implementation: its `parseRevisionHistory` walks `.activity-item`
elements, and its `fetchRevisionHistory` maps only HTTP 401 to
`COOKIES_EXPIRED` and never touches the cookie store.
-/

/-- One `.activity-item` element as read by the secondary parser: the
texts of its `.activity-type`, `.activity-author`, `.old-value` and
`.new-value` children (`""` when absent) and the parsed
`data-timestamp` attribute of `.activity-timestamp` (the string-to-int
parse is abstracted to an already-parsed optional number). -/
structure ActivityItem where
  activityTypeText : String
  timestampAttr : Option Nat
  authorText : String
  oldValueText : String
  newValueText : String
deriving Repr, DecidableEq

/-- The body of the `$(".activity-item").each` loop of
`RevisionHistoryService.parseRevisionHistory`; `idx` is the element index
over all `.activity-item` elements and `now` stands for `new Date()`. -/
def rhParseItem (recordId : String) (now : Nat) (idx : Nat) (it : ActivityItem) : List Revision :=
  let activityType := strTrim it.activityTypeText
  if jsIncludes activityType "Assignee" || jsIncludes activityType "Status" then
    [{ uuid := recordId ++ "-" ++ toString idx
       issueId := recordId
       columnType := if jsIncludes activityType "Assignee" then "Assignee" else "Status"
       oldValue := strOrNull (strTrim it.oldValueText)
       newValue := strOrNull (strTrim it.newValueText)
       createdDate := it.timestampAttr.getD now
       authoredBy := strTrim it.authorText }]
  else []

/-- `RevisionHistoryService.parseRevisionHistory` over the parsed
`.activity-item` elements of the response HTML. -/
def rhParseRevisionHistory (items : List ActivityItem) (recordId : String) (now : Nat) :
    List Revision :=
  items.enum.flatMap fun p => rhParseItem recordId now p.1 p.2

/-- The response seen by `RevisionHistoryService.fetchRevisionHistory`:
a body (parsed into activity items), a falsy body, or a thrown request
error with an optional HTTP status. -/
inductive RhResponse where
  | ok (items : List ActivityItem)
  | noData
  | err (status : Option Nat)
deriving Repr, DecidableEq

/-- Result of the secondary fetcher. -/
inductive RhResult where
  | success (revisions : List Revision)
  | cookiesExpired
  | failure (status : Option Nat)
deriving Repr, DecidableEq

/-- `RevisionHistoryService.fetchRevisionHistory`: parse a body when one
is present; on a thrown error, raise `COOKIES_EXPIRED` exactly for HTTP
401 and rethrow anything else.  The function never writes the cookie
store, so the stored validity flag `valid` is returned unchanged on every
path. -/
def rhFetchRevisionHistory (resp : RhResponse) (recordId : String) (now : Nat) (valid : Bool) :
    RhResult × Bool :=
  match resp with
  | .ok items => (.success (rhParseRevisionHistory items recordId now), valid)
  | .noData => (.success [], valid)
  | .err status =>
    if status = some 401 then (.cookiesExpired, valid)
    else (.failure status, valid)

/-! ## The Bottleneck rate limiter of `AirtableService`

The metadata client (`AirtableService` in `revision-history.service.ts`)
schedules its requests through a Bottleneck limiter (`minTime: 200`,
`maxConcurrent: 5`) and registers a `failed` handler: Bottleneck retries
a failed job exactly when that handler returns a wait time.
-/

/-- The error object seen by the `failed` handler: an axios error
carries `error.response?.status`, an Airtable.js error carries
`error.statusCode`. -/
structure LimiterError where
  responseStatus : Option Nat
  statusCode : Option Nat
deriving Repr, DecidableEq

/-- The `limiter.on("failed", ...)` handler of the `AirtableService`
constructor: for a 429 from either error shape it returns the wait time
`(jobInfo.retryCount + 1) * 2000` milliseconds — so the job is retried —
and for every other error it returns nothing, so the job is not
retried. -/
def limiterOnFailed (error : LimiterError) (retryCount : Nat) : Option Nat :=
  if error.responseStatus = some 429 ∨ error.statusCode = some 429 then
    some ((retryCount + 1) * 2000)
  else none

/-- A 429 axios error as seen by the limiter's `failed` handler. -/
def err429Axios : LimiterError := { responseStatus := some 429, statusCode := none }

/-! ## Cookie store, validator and accessor (`ScrapingService`) -/

/-- The single `CookieStore` document. -/
structure CookieRec where
  cookies : String
  isValid : Bool
  lastValidated : Nat
  mfaRequired : Bool
deriving Repr, DecidableEq

/-- Outcome of one probe request of `validateCookies`: a response with a
status below 500 (axios `validateStatus` admits 200–499), or a thrown
request error (network failure or a 5xx status). -/
inductive ProbeOutcome where
  | status (code : Nat)
  | exn
deriving Repr, DecidableEq

/-- `CookieStore.findOneAndUpdate({}, {isValid: true, lastValidated: now})`:
updates the stored document when one exists (no upsert flag, so an absent
document stays absent). -/
def markStoreValid (store : Option CookieRec) (now : Nat) : Option CookieRec :=
  match store with
  | none => none
  | some r => some { r with isValid := true, lastValidated := now }

/-- `ScrapingService.validateCookies`, driven by the outcomes of the
probe requests against the three validation endpoints (in order): a 200
response marks the store valid and returns `true`; a 401/403 or any other
non-200 response, and a thrown request, merely log and move to the next
endpoint; when every endpoint has failed the store is marked valid
optimistically and the function still returns `true`. -/
def validateCookies (probes : List ProbeOutcome) (store : Option CookieRec) (now : Nat) :
    Bool × Option CookieRec :=
  match probes with
  | [] => (true, markStoreValid store now)
  | p :: rest =>
    match p with
    | .status code =>
      if code = 200 then (true, markStoreValid store now)
      else validateCookies rest store now
    | .exn => validateCookies rest store now

/-- The five-minute freshness window of `getOrExtractCookies`, in
milliseconds. -/
def fiveMinutesMs : Nat := 5 * 60 * 1000

/-- `ScrapingService.getOrExtractCookies`: return the cached cookies when
the stored blob is valid and validated within the last five minutes;
re-validate a stale valid blob via `validateCookies`; otherwise throw the
distinguished "no valid cookies" error (modelled as `none`).  On success
the (possibly re-marked) store is returned alongside the cookie string. -/
def getOrExtractCookies (store : Option CookieRec) (probes : List ProbeOutcome) (now : Nat) :
    Option (String × Option CookieRec) :=
  match store with
  | some r =>
    if r.isValid then
      if now < r.lastValidated + fiveMinutesMs then some (r.cookies, some r)
      else
        let v := validateCookies probes (some r) now
        if v.1 then some (r.cookies, v.2) else none
    else none
  | none => none

/-! ## The per-record fetcher (`ScrapingService.fetchRevisionHistory`)

The attempt at `retryCount` receives one HTTP outcome; the whole
interaction is therefore driven by a function from attempt numbers to
outcomes.  Besides the result, the model returns the cookie-store
validity flag after the call and the list of backoff delays (in
milliseconds) that were slept before retries.
-/

/-- The outcome of one HTTP request of the fetcher: a 2xx body carrying
activities (either via `rowActivityInfoById` or the old `activities`
format), a 2xx body without activities, a thrown error with a response
status, or a thrown error without a response. -/
inductive HttpOutcome where
  | ok (activities : List Activity)
  | okNoActivities
  | httpError (status : Nat)
  | networkError
deriving Repr, DecidableEq

/-- Result of the fetcher: parsed revisions, the distinguished
`COOKIES_EXPIRED` error, or a rethrown error with its optional HTTP
status. -/
inductive FetchResult where
  | success (revisions : List Revision)
  | cookiesExpired
  | failure (status : Option Nat)
deriving Repr, DecidableEq

/-- `this.maxRetries` of `ScrapingService`. -/
def maxRetries : Nat := 3

/-- `ScrapingService.fetchRevisionHistory` from a given `retryCount`:
a body with activities is parsed; HTTP 404 returns the empty list; HTTP
401/403 marks the cookie store invalid and throws `COOKIES_EXPIRED`; HTTP
429 with `retryCount < maxRetries` sleeps `2 ^ retryCount * 1000`
milliseconds and retries; every other error (including a 429 with
exhausted retries) is rethrown.  Returns (result, validity flag of the
cookie store, backoff delays slept). -/
def fetchRevisionHistoryGo (responses : Nat → HttpOutcome) (pageId : String)
    (retryCount : Nat) (valid : Bool) : FetchResult × Bool × List Nat :=
  match responses retryCount with
  | .ok activities => (.success (parseRevisionHistory activities pageId), valid, [])
  | .okNoActivities => (.success [], valid, [])
  | .httpError status =>
    if status = 404 then (.success [], valid, [])
    else if status = 401 ∨ status = 403 then (.cookiesExpired, false, [])
    else if h : status = 429 ∧ retryCount < maxRetries then
      let waitTime := 2 ^ retryCount * 1000
      let r := fetchRevisionHistoryGo responses pageId (retryCount + 1) valid
      (r.1, r.2.1, waitTime :: r.2.2)
    else (.failure (some status), valid, [])
  | .networkError => (.failure none, valid, [])
termination_by maxRetries + 1 - retryCount
decreasing_by simp [maxRetries] at *; omega

/-- The fetcher as invoked by callers (default `retryCount = 0`). -/
def fetchRevisionHistory (responses : Nat → HttpOutcome) (pageId : String) (valid : Bool) :
    FetchResult × Bool × List Nat :=
  fetchRevisionHistoryGo responses pageId 0 valid

/-! ## Persistence of revision histories -/

/-- One document of the `RevisionHistory` collection used by the scraping
paths, keyed by `pageId`. -/
structure RevDoc where
  pageId : String
  baseId : String
  tableId : String
  revisions : List Revision
deriving Repr, DecidableEq

/-- `RevisionHistory.findOneAndUpdate({pageId}, {...all fields...},
{upsert: true})`: replace the document with that `pageId` when present,
otherwise insert a new one.  The same update is performed per operation
by the `bulkWrite` of the orchestrator. -/
def upsertRevisionDoc (store : List RevDoc) (doc : RevDoc) : List RevDoc :=
  if store.any fun d => d.pageId == doc.pageId then
    store.map fun d => if d.pageId == doc.pageId then doc else d
  else store ++ [doc]

/-- `RevisionHistory.bulkWrite(bulkOps, {ordered: false})` where every
operation is an `updateOne` upsert by `pageId`. -/
def applyBulkOps (store : List RevDoc) (ops : List RevDoc) : List RevDoc :=
  ops.foldl upsertRevisionDoc store

/-- One document of the per-activity `RevisionHistory` collection used by
`POST /revision-history/fetch` (`src/models/revision-history.model.ts`):
the activity fields plus `baseId` and `tableId`. -/
structure RhDoc where
  activity : Revision
  baseId : String
  tableId : String
deriving Repr, DecidableEq

/-- The save loop of `POST /revision-history/fetch`: for each fetched
activity, `findOne({uuid})` and `create` the document only when no
document with that `uuid` exists yet. -/
def saveActivities (store : List RhDoc) (activities : List Revision)
    (baseId tableId : String) : List RhDoc :=
  activities.foldl
    (fun st a =>
      if st.any fun d => d.activity.uuid == a.uuid then st
      else st ++ [{ activity := a, baseId := baseId, tableId := tableId }])
    store

/-! ## The batch orchestrator (`ScrapingService.fetchAllRevisionHistory`) -/

/-- One target record (`Page` document fields used by the orchestrator). -/
structure PageRef where
  pageId : String
  baseId : String
  tableId : String
deriving Repr, DecidableEq

/-- The running counters of the orchestrator. -/
structure Counters where
  processed : Nat
  withHistory : Nat
  withoutHistory : Nat
  updated : Nat
  newPages : Nat
  errors : Nat
deriving Repr, DecidableEq

/-- All counters zero. -/
def zeroCounters : Counters := ⟨0, 0, 0, 0, 0, 0⟩

/-- One settled entry of the `Promise.allSettled` batch: a fulfilled
success with history (carrying the data for the bulk operation and the
new/updated flags), a fulfilled success without history, a fulfilled
per-record failure (`success: false`), or a rejection carrying the
`COOKIES_EXPIRED` error — the only error the per-record `catch` block
rethrows. -/
inductive Settled where
  | ok (pageId baseId tableId : String) (revisions : List Revision) (isUpdate isNew : Bool)
  | okNoHistory (pageId : String)
  | fail (pageId : String) (status : Option Nat)
  | rejectedExpired (pageId : String)
deriving Repr, DecidableEq

/-- The `batch.map` worker for one page, given the per-record fetch
outcome: a non-empty fetch yields a success with history (flagged updated
or new against the pre-loaded `existing` pageIds); an empty fetch yields
a success without history; a thrown `COOKIES_EXPIRED` is rethrown
(rejecting the promise); a thrown error with HTTP status 404 is converted
to a success without history; any other thrown error is converted to a
fulfilled `success: false` value. -/
def settleRecord (fetchOut : String → FetchResult) (existing : List String) (p : PageRef) :
    Settled :=
  match fetchOut p.pageId with
  | .success revisions =>
    let wasProcessedBefore := existing.contains p.pageId
    if revisions.isEmpty then .okNoHistory p.pageId
    else .ok p.pageId p.baseId p.tableId revisions wasProcessedBefore (!wasProcessedBefore)
  | .cookiesExpired => .rejectedExpired p.pageId
  | .failure status =>
    if status = some 404 then .okNoHistory p.pageId
    else .fail p.pageId status

/-- The result-analysis loop over the settled batch: it updates the
counters and collects the bulk operations, and aborts (`Sum.inr`, with
the counters at the abort point) as soon as it meets a rejection carrying
`COOKIES_EXPIRED`; a fulfilled failure only increments `errors`, a
rejection increments both `errors` and `processed` before aborting. -/
def resultsLoop : List Settled → Counters → List RevDoc → (Counters × List RevDoc) ⊕ Counters
  | [], c, ops => .inl (c, ops)
  | s :: rest, c, ops =>
    match s with
    | .ok pageId baseId tableId revisions isUpdate isNew =>
      resultsLoop rest
        { c with
          processed := c.processed + 1
          withHistory := c.withHistory + 1
          updated := c.updated + (if isUpdate then 1 else 0)
          newPages := c.newPages + (if isNew then 1 else 0) }
        (ops ++ [{ pageId := pageId, baseId := baseId, tableId := tableId,
                   revisions := revisions }])
    | .okNoHistory _ =>
      resultsLoop rest
        { c with processed := c.processed + 1, withoutHistory := c.withoutHistory + 1 } ops
    | .fail _ _ =>
      resultsLoop rest { c with errors := c.errors + 1 } ops
    | .rejectedExpired _ =>
      .inr { c with errors := c.errors + 1, processed := c.processed + 1 }

/-- The message of the fatal error thrown by the orchestrator when a
rejection carries `COOKIES_EXPIRED`. -/
def cookiesExpiredMsg : String := "Cookies expired during processing. Please re-authenticate."

/-- Terminal state of one orchestrator run: completed, or failed with the
thrown error message; both carry the final counters and the state of the
`RevisionHistory` collection. -/
inductive JobResult where
  | completed (counters : Counters) (db : List RevDoc)
  | failed (msg : String) (counters : Counters) (db : List RevDoc)
deriving Repr, DecidableEq

/-- The batch loop of `fetchAllRevisionHistory`: settle one batch,
analyse its results (aborting the whole job on `COOKIES_EXPIRED`), then
attempt the bulk write — a failing bulk write is caught and only logged
(`bulkFails` says whether the write of batch `i` throws) — and continue
with the next batch.  The progress callback and the inter-batch pacing
delay have no effect on the modelled state. -/
def runBatches (fetchOut : String → FetchResult) (bulkFails : Nat → Bool)
    (existing : List String) :
    List (List PageRef) → Nat → Counters → List RevDoc → JobResult
  | [], _, c, db => .completed c db
  | batch :: rest, i, c, db =>
    let settled := batch.map (settleRecord fetchOut existing)
    match resultsLoop settled c [] with
    | .inr cAbort => .failed cookiesExpiredMsg cAbort db
    | .inl (c', ops) =>
      let db' := if ops.isEmpty || bulkFails i then db else applyBulkOps db ops
      runBatches fetchOut bulkFails existing rest (i + 1) c' db'

/-- The page filter of the orchestrator:
`allPages.filter(p => p.baseId && p.tableId && p.pageId)`. -/
def validPage (p : PageRef) : Bool :=
  !(p.baseId == "") && !(p.tableId == "") && !(p.pageId == "")

/-- `pagesToProcess.slice(i, i + batchSize)` chunking, with an explicit
length fuel to make the recursion structural. -/
def chunkGo (n : Nat) : Nat → List PageRef → List (List PageRef)
  | 0, _ => []
  | _, [] => []
  | fuel + 1, xs => xs.take n :: chunkGo n fuel (xs.drop n)

/-- Partition the target pages into batches of size `batchSize` (the
source loops `i += batchSize`; a batch size of zero would loop forever
and is never used — the callers pass 5 or 10). -/
def chunkList (batchSize : Nat) (xs : List PageRef) : List (List PageRef) :=
  if batchSize = 0 then [] else chunkGo batchSize xs.length xs

/-- `ScrapingService.fetchAllRevisionHistory` after its cookie preamble:
read the existing revision documents, filter and chunk the target pages,
and run the batch loop from zero counters. -/
def fetchAllRevisionHistoryModel (fetchOut : String → FetchResult) (bulkFails : Nat → Bool)
    (db : List RevDoc) (pages : List PageRef) (batchSize : Nat) : JobResult :=
  let existing := db.map RevDoc.pageId
  let pagesToProcess := pages.filter validPage
  runBatches fetchOut bulkFails existing (chunkList batchSize pagesToProcess) 0 zeroCounters db

/-! ## The `POST /fetch-all-revisions` route (`scraping.routes.ts`) -/

/-- The request body of `POST /fetch-all-revisions`.  The body carries
only an optional `batchSize`; no force-restart or similar override field
is read by the handler. -/
structure FetchAllBody where
  batchSize : Option Nat
deriving Repr, DecidableEq

/-- An HTTP reply of the route. -/
structure RouteReply where
  status : Nat
  success : Bool
deriving Repr, DecidableEq

/-- The `POST /fetch-all-revisions` handler: it constructs a fresh
`ScrapingService`, starts `fetchAllRevisionHistory(batchSize)` in the
background without awaiting it, and immediately replies with a success
message.  It consults no job registry (none exists in the code), so the
reply does not depend on how many background runs (`runningJobs`) are
already in flight; the count of in-flight runs grows by one. -/
def fetchAllRevisionsRoute (body : FetchAllBody) (runningJobs : Nat) : RouteReply × Nat :=
  let _batchSize := body.batchSize.getD 10
  ({ status := 200, success := true }, runningJobs + 1)

/-- Serve a sequence of `POST /fetch-all-revisions` requests, returning
the replies and the final number of in-flight background runs. -/
def runStartRequests : List FetchAllBody → Nat → List RouteReply × Nat
  | [], n => ([], n)
  | b :: rest, n =>
    let r := fetchAllRevisionsRoute b n
    let rs := runStartRequests rest r.2
    (r.1 :: rs.1, rs.2)

/-! ## Sample data used by concrete theorems -/

/-- A token carrying title `Todo` and a strikethrough style. -/
def sampleToken : Token :=
  { titleAttr := some "Todo", text := "", href := "", style := "text-decoration: line-through" }

/-- A `Status` select container holding `sampleToken`. -/
def sampleContainer : Container :=
  { fieldName := "Status", columnTypeAttr := "select", tokens := [sampleToken] }

/-- A concrete activity holding `sampleContainer`. -/
def sampleActivity : Activity :=
  { id := "act1", createdTime := 5, userName := some "alice", userEmail := none,
    hasHtml := true, parseFails := false, containers := [sampleContainer] }

/-- The event the diff parser produces for `sampleActivity`. -/
def sampleRevision : Revision :=
  { uuid := "act1", issueId := "pg1", columnType := "status", oldValue := some "Todo",
    newValue := none, createdDate := 5, authoredBy := "alice" }

/-- A container whose label contains `assign` (but none of `assigned`,
`assignee`, `developer`) with the select value type and one added
token. -/
def assignLabelContainer : Container :=
  { fieldName := "Assign", columnTypeAttr := "select",
    tokens := [{ titleAttr := some "Bob", text := "", href := "", style := "" }] }

/-- A concrete `.activity-item` of Assignee type with no value elements. -/
def rhSampleItem : ActivityItem :=
  { activityTypeText := "Assignee changed", timestampAttr := none, authorText := "alice",
    oldValueText := "", newValueText := "" }

/-- The event the secondary parser produces for `rhSampleItem`: both
values are null. -/
def rhSampleRevision : Revision :=
  { uuid := "rec1-0", issueId := "rec1", columnType := "Assignee", oldValue := none,
    newValue := none, createdDate := 99, authoredBy := "alice" }

/-- Outcome of one orchestrator run as observed by the caller: whether
the run completed and the final counters (the persisted state is
excluded on purpose, to compare runs with different bulk-write
outcomes). -/
def jobOutcome : JobResult → Bool × Counters
  | .completed c _ => (true, c)
  | .failed _ c _ => (false, c)

/-- A concrete valid target page. -/
def pageA : PageRef := { pageId := "recA", baseId := "b", tableId := "t" }

/-- A concrete valid target page whose fetch will expire. -/
def pageC : PageRef := { pageId := "recC", baseId := "b", tableId := "t" }

/-- A fetch oracle under which `pageC` raises `COOKIES_EXPIRED` and every
other record fetch succeeds with no history. -/
def expiringFetch : String → FetchResult := fun pageId =>
  if pageId = "recC" then .cookiesExpired else .success []

/-- A first event set for record `rec1`. -/
def docS1 : RevDoc :=
  { pageId := "rec1", baseId := "b", tableId := "t", revisions := [sampleRevision] }

/-- A second, different event set for the same record `rec1`. -/
def docS2 : RevDoc :=
  { pageId := "rec1", baseId := "b", tableId := "t", revisions := [] }

/-- A first fetched activity for record `r` (uuid `r-0`). -/
def activityV1 : Revision :=
  { uuid := "r-0", issueId := "r", columnType := "Assignee", oldValue := none,
    newValue := some "Alice", createdDate := 1, authoredBy := "u" }

/-- A later re-fetch of the same activity slot (same uuid `r-0`) with a
different value. -/
def activityV2 : Revision :=
  { uuid := "r-0", issueId := "r", columnType := "Assignee", oldValue := some "Alice",
    newValue := some "Bob", createdDate := 2, authoredBy := "u" }

/-! ## Lemmas about the diff parser -/

theorem strOrNull_eq_none {s : String} : strOrNull s = none ↔ (s == "") = true := by
  simp only [strOrNull]
  split <;> simp_all

/-- Bridge lemma: the container loop body, re-expressed through
`classifyContainer`. -/
theorem processContainer_eq (act : Activity) (pageId : String) (c : Container) :
    processContainer act pageId c =
      match classifyContainer c with
      | none => []
      | some ct =>
        let vals := c.tokens.foldl bucketToken { oldValue := "", newValue := "" }
        if !(vals.oldValue == "") || !(vals.newValue == "") then
          [mkRevision act pageId ct vals]
        else [] := by
  simp only [processContainer, classifyContainer]
  cases h1 : jsIncludes (strToLower (strTrim c.fieldName)) "assigned" <;>
  cases h2 : jsIncludes (strToLower (strTrim c.fieldName)) "assignee" <;>
  cases h3 : jsIncludes (strToLower (strTrim c.fieldName)) "developer" <;>
  cases h4 : jsIncludes (strToLower (strTrim c.fieldName)) "status" <;>
  cases h5 : (c.columnTypeAttr == "select") <;>
  simp [h1, h2, h3, h4, h5]

theorem classifyContainer_values {c : Container} {ct : String}
    (h : classifyContainer c = some ct) : ct = "assignee" ∨ ct = "status" := by
  simp only [classifyContainer] at h
  split at h
  · rcases Option.some_inj.mp h with rfl
    split
    · exact Or.inl rfl
    · exact Or.inr rfl
  · exact absurd h (by simp)

theorem mem_processContainer {r : Revision} {act : Activity} {pageId : String} {c : Container}
    (h : r ∈ processContainer act pageId c) :
    (r.columnType = "assignee" ∨ r.columnType = "status") ∧
      (r.oldValue ≠ none ∨ r.newValue ≠ none) := by
  rw [processContainer_eq] at h
  rcases hcl : classifyContainer c with _ | ct <;> rw [hcl] at h
  · simp at h
  · simp only at h
    split at h
    · rcases List.mem_singleton.mp h with rfl
      refine ⟨classifyContainer_values hcl, ?_⟩
      rename_i hvals
      simp only [Bool.or_eq_true, Bool.not_eq_true'] at hvals
      rcases hvals with hv | hv
      · left; simp [mkRevision, strOrNull, hv]
      · right; simp [mkRevision, strOrNull, hv]
    · simp at h

theorem mem_parseRevisionHistory {r : Revision} {activities : List Activity} {pageId : String}
    (h : r ∈ parseRevisionHistory activities pageId) :
    ∃ act ∈ activities, ∃ c ∈ act.containers, r ∈ processContainer act pageId c := by
  rw [parseRevisionHistory, List.mem_flatMap] at h
  obtain ⟨act, hact, hr⟩ := h
  refine ⟨act, hact, ?_⟩
  simp only [parseActivity] at hr
  split at hr
  · simp at hr
  · split at hr
    · simp at hr
    · exact List.mem_flatMap.mp hr

theorem mem_rhParseRevisionHistory {r : Revision} {items : List ActivityItem}
    {recordId : String} {now : Nat} (h : r ∈ rhParseRevisionHistory items recordId now) :
    r.columnType = "Assignee" ∨ r.columnType = "Status" := by
  rw [rhParseRevisionHistory, List.mem_flatMap] at h
  obtain ⟨⟨idx, it⟩, _, hr⟩ := h
  simp only [rhParseItem] at hr
  split at hr
  · rcases List.mem_singleton.mp hr with rfl
    dsimp only
    split
    · exact Or.inl rfl
    · exact Or.inr rfl
  · simp at hr

/-- The code classifier agrees with the amended classification rule. -/
theorem classifyContainer_eq_amended (c : Container) :
    classifyContainer c = amendedClassify c := by
  simp only [classifyContainer, amendedClassify]
  cases h1 : jsIncludes (strToLower (strTrim c.fieldName)) "assigned" <;>
  cases h2 : jsIncludes (strToLower (strTrim c.fieldName)) "assignee" <;>
  cases h3 : jsIncludes (strToLower (strTrim c.fieldName)) "developer" <;>
  cases h4 : jsIncludes (strToLower (strTrim c.fieldName)) "status" <;>
  cases h5 : (c.columnTypeAttr == "select") <;>
  simp [h1, h2, h3, h4, h5]

/-- The token loop body agrees with the spec-ordered polarity rule. -/
theorem bucketToken_eq (acc : ValuePair) (t : Token) :
    bucketToken acc t = applySpecPolarity acc t := by
  simp only [bucketToken, applySpecPolarity, tokenPolarity]
  cases h1 : (tokenTitle t == "") <;>
  cases h2 : jsIncludes t.href "Plus" <;>
  cases h3 : jsIncludes t.href "Minus" <;>
  cases h4 : jsIncludes t.style "line-through" <;>
  simp [h1, h2, h3, h4]

/-- The new value after the token loop is the title of the last token of
added polarity (the first one found in the reversed token list), or the
initial new value when no token has added polarity. -/
theorem foldl_bucketToken_newValue (ts : List Token) (init : ValuePair) :
    (ts.foldl bucketToken init).newValue =
      match ts.reverse.find? (fun t => tokenPolarity t == some true) with
      | some t => tokenTitle t
      | none => init.newValue := by
  induction ts generalizing init with
  | nil => simp
  | cons t ts ih =>
    rw [List.foldl_cons, ih, List.reverse_cons, List.find?_append]
    rcases hfind : ts.reverse.find? (fun t => tokenPolarity t == some true) with _ | x
    · simp only [Option.none_or]
      rw [bucketToken_eq, applySpecPolarity]
      rcases hp : tokenPolarity t with _ | b
      · simp [List.find?, hp]
      · cases b <;> simp [List.find?, hp]
    · simp

/-- The old value after the token loop is the title of the last token of
removed polarity, or the initial old value when no token has removed
polarity. -/
theorem foldl_bucketToken_oldValue (ts : List Token) (init : ValuePair) :
    (ts.foldl bucketToken init).oldValue =
      match ts.reverse.find? (fun t => tokenPolarity t == some false) with
      | some t => tokenTitle t
      | none => init.oldValue := by
  induction ts generalizing init with
  | nil => simp
  | cons t ts ih =>
    rw [List.foldl_cons, ih, List.reverse_cons, List.find?_append]
    rcases hfind : ts.reverse.find? (fun t => tokenPolarity t == some false) with _ | x
    · simp only [Option.none_or]
      rw [bucketToken_eq, applySpecPolarity]
      rcases hp : tokenPolarity t with _ | b
      · simp [List.find?, hp]
      · cases b <;> simp [List.find?, hp]
    · simp

/-! ## Claim theorems: the diff parser (C2, C4, C9) -/

/-- Claim C2, counterexample: the claim asserts that every change event
produced by the diff parser has at least one of `oldValue`, `newValue`
non-null, but the secondary parser
(`RevisionHistoryService.parseRevisionHistory`) pushes, for a concrete
`.activity-item` of Assignee type whose `.old-value` and `.new-value`
elements are absent, an event with both values null. -/
theorem rhParser_both_null_cex :
    rhParseRevisionHistory [rhSampleItem] "rec1" 99 = [rhSampleRevision] ∧
      rhSampleRevision.oldValue = none ∧ rhSampleRevision.newValue = none := by
  decide

/-- Claim C2 (amended): every change event produced by the scraping
service diff parser has `columnType` equal to `assignee` or `status` and
at least one of `oldValue`, `newValue` non-null; the secondary parser of
`RevisionHistoryService` guarantees only the field-kind half of the
invariant (`Assignee` or `Status`) and can emit events with both values
null. -/
theorem change_event_invariant_amended :
    (∀ (activities : List Activity) (pageId : String) (r : Revision),
        r ∈ parseRevisionHistory activities pageId →
          (r.columnType = "assignee" ∨ r.columnType = "status") ∧
            (r.oldValue ≠ none ∨ r.newValue ≠ none)) ∧
    (∀ (items : List ActivityItem) (recordId : String) (now : Nat) (r : Revision),
        r ∈ rhParseRevisionHistory items recordId now →
          r.columnType = "Assignee" ∨ r.columnType = "Status") := by
  constructor
  · intro activities pageId r h
    obtain ⟨act, _, c, _, hc⟩ := mem_parseRevisionHistory h
    exact mem_processContainer hc
  · intro items recordId now r h
    exact mem_rhParseRevisionHistory h

/-- Witness for the amended claim C2 at a concrete input. -/
theorem change_event_invariant_amended_witness :
    (sampleRevision.columnType = "assignee" ∨ sampleRevision.columnType = "status") ∧
      (sampleRevision.oldValue ≠ none ∨ sampleRevision.newValue ≠ none) :=
  change_event_invariant_amended.1 [sampleActivity] "pg1" sampleRevision (by decide)

/-- Claim C4, counterexample: the claim states that a display label
containing `assign` together with the link-type value attribute is
classified Assignee, but the parser skips the concrete container with
label `Assign`, select value type and an added token `Bob`: it is not
classified and no event is emitted. -/
theorem classification_assign_label_cex :
    specClassify assignLabelContainer = some "assignee" ∧
      classifyContainer assignLabelContainer = none ∧
      processContainer sampleActivity "p1" assignLabelContainer = [] := by
  decide

/-- Claim C4 (amended): the parser classifies exactly per the amended
rule — a label containing `assigned`, `assignee` or `developer` with the
`select` value-type attribute is Assignee; a label containing `status`
(and none of the assignee keywords) with the `select` attribute is
Status; every other container is skipped — and every emitted event
carries the field kind assigned by that classification (so an
unclassified container emits nothing and raises no error). -/
theorem classification_amended :
    ∀ (c : Container) (act : Activity) (pageId : String),
      classifyContainer c = amendedClassify c ∧
        (processContainer act pageId c).all
          (fun r => classifyContainer c == some r.columnType) = true := by
  intro c act pageId
  refine ⟨classifyContainer_eq_amended c, ?_⟩
  rw [List.all_eq_true]
  intro r hr
  rw [processContainer_eq] at hr
  rcases hcl : classifyContainer c with _ | ct <;> rw [hcl] at hr
  · simp at hr
  · simp only at hr
    split at hr
    · rcases List.mem_singleton.mp hr with rfl
      simp [mkRevision, hcl]
    · simp at hr

/-- Claim C9: each value token is bucketed by the spec preference order —
a Plus/Minus icon marker decides added/removed; otherwise a strikethrough
(line-through) style marks it removed; otherwise it counts as added — and
over a whole token list the last token of a polarity determines the
stored value of that polarity (the functions are total, so no error is
raised). -/
theorem token_bucketing_order :
    (∀ (acc : ValuePair) (t : Token), bucketToken acc t = applySpecPolarity acc t) ∧
    (∀ (ts : List Token) (init : ValuePair),
        ((ts.foldl bucketToken init).newValue =
          match ts.reverse.find? (fun t => tokenPolarity t == some true) with
          | some t => tokenTitle t
          | none => init.newValue) ∧
        ((ts.foldl bucketToken init).oldValue =
          match ts.reverse.find? (fun t => tokenPolarity t == some false) with
          | some t => tokenTitle t
          | none => init.oldValue)) :=
  ⟨bucketToken_eq, fun ts init =>
    ⟨foldl_bucketToken_newValue ts init, foldl_bucketToken_oldValue ts init⟩⟩

/-! ## Claim theorems: the cookie validator (C3) -/

/-- Claim C3, counterexample: the claim states that when every probe
fails (in particular with 401/403 answers) the stored blob is moved to
`isValid = false` and never re-marked valid; but on the concrete probe
outcomes 401, 403, 401 the validator re-marks the stored (already
invalid) blob as valid, refreshes `lastValidated`, and reports success. -/
theorem validator_optimistic_cex :
    validateCookies [.status 401, .status 403, .status 401]
        (some { cookies := "c", isValid := false, lastValidated := 0, mfaRequired := false }) 7 =
      (true,
        some { cookies := "c", isValid := true, lastValidated := 7, mfaRequired := false }) := by
  decide

/-- Claim C3 (amended): whatever the probe outcomes — including the case
in which every probe endpoint answers 401 or 403 — `validateCookies`
returns `true` and re-marks the stored blob valid with a refreshed
`lastValidated` timestamp; the validator never sets `isValid = false`
(the invalid transition happens only in the fetcher on a 401/403
response). -/
theorem validator_always_marks_valid :
    ∀ (probes : List ProbeOutcome) (store : Option CookieRec) (now : Nat),
      validateCookies probes store now = (true, markStoreValid store now) := by
  intro probes store now
  induction probes with
  | nil => rfl
  | cons p rest ih =>
    cases p with
    | status code =>
      by_cases h : code = 200 <;> simp [validateCookies, h, ih]
    | exn => simpa [validateCookies] using ih

/-! ## Lemmas about the fetcher -/

/-- The backoff delays slept from attempt `k` onwards form a prefix of
the schedule `2 ^ (k + a) * 1000` for `a < maxRetries - k`. -/
theorem fetch_delays_aux (responses : Nat → HttpOutcome) (pageId : String) (valid : Bool) :
    ∀ (n k : Nat), maxRetries + 1 - k ≤ n →
      (fetchRevisionHistoryGo responses pageId k valid).2.2 <+:
        ((List.range (maxRetries - k)).map fun a => 2 ^ (k + a) * 1000) := by
  intro n
  induction n with
  | zero =>
    intro k hk
    simp only [maxRetries] at hk
    unfold fetchRevisionHistoryGo
    split
    · exact List.nil_prefix
    · exact List.nil_prefix
    · split
      · exact List.nil_prefix
      · split
        · exact List.nil_prefix
        · split
          · rename_i h
            have : k < 3 := by simpa [maxRetries] using h.2
            omega
          · exact List.nil_prefix
    · exact List.nil_prefix
  | succ n ih =>
    intro k hk
    simp only [maxRetries] at hk
    unfold fetchRevisionHistoryGo
    split
    · exact List.nil_prefix
    · exact List.nil_prefix
    · split
      · exact List.nil_prefix
      · split
        · exact List.nil_prefix
        · split
          · rename_i h
            have hk3 : k < 3 := by simpa [maxRetries] using h.2
            dsimp only
            interval_cases k
            · obtain ⟨t, ht⟩ := ih 1 (by simp only [maxRetries]; omega)
              refine ⟨t, ?_⟩
              rw [List.cons_append, ht]
              decide
            · obtain ⟨t, ht⟩ := ih 2 (by simp only [maxRetries]; omega)
              refine ⟨t, ?_⟩
              rw [List.cons_append, ht]
              decide
            · obtain ⟨t, ht⟩ := ih 3 (by simp only [maxRetries]; omega)
              refine ⟨t, ?_⟩
              rw [List.cons_append, ht]
              decide
          · exact List.nil_prefix
    · exact List.nil_prefix

/-- A 401 or 403 response makes the fetcher mark the cookie store
invalid and throw `COOKIES_EXPIRED`, with no retry. -/
theorem fetch_auth_expired_aux (responses : Nat → HttpOutcome) (pageId : String)
    (retryCount : Nat) (valid : Bool) (status : Nat) (hst : status = 401 ∨ status = 403)
    (h : responses retryCount = .httpError status) :
    fetchRevisionHistoryGo responses pageId retryCount valid = (.cookiesExpired, false, []) := by
  unfold fetchRevisionHistoryGo
  rw [h]
  rcases hst with rfl | rfl <;> simp

/-! ## Claim theorems: the fetcher (C5, C8) -/

/-- Claim C5, counterexample: the claim states that on HTTP 429 the
same request is retried after `base * 2 ^ attempt`, for at most
`maxRetries = 3` attempts, with the failure surfaced once the bound is
exceeded; but the Bottleneck `failed` handler of `AirtableService`
(also cited by the claim) waits `(retryCount + 1) * 2000` ms — the
concrete delays 2000, 4000, 6000 are linear, not geometric: with the
base 2000 fixed by the first delay, `base * 2 ^ 2 = 8000 ≠ 6000` — and
at `retryCount = maxRetries = 3` it still returns a wait time, granting
yet another retry instead of surfacing the 429 failure. -/
theorem bottleneck_429_linear_cex :
    limiterOnFailed err429Axios 0 = some 2000 ∧
      limiterOnFailed err429Axios 1 = some 4000 ∧
      limiterOnFailed err429Axios 2 = some 6000 ∧
      limiterOnFailed err429Axios maxRetries = some 8000 ∧
      limiterOnFailed err429Axios 2 ≠ some (2000 * 2 ^ 2) := by
  decide

/-- Claim C5 (amended): in the scraping service fetcher an HTTP 429 is
retried after `base * 2 ^ attempt` (base 1000 ms) — the slept delays
always form a prefix of the schedule `[1000, 2000, 4000]`, so each delay
is capped (by 4000 ms) and at most `maxRetries = 3` retries happen — and
when the attempt bound is exceeded the 429 failure is surfaced to the
caller instead of being retried again.  The Bottleneck limiter of
`AirtableService`, however, retries a 429 after the linear delay
`(retryCount + 1) * 2000` ms at every attempt count — neither
exponential nor bounded, so a persistent 429 is never surfaced there —
while non-429 errors are not retried at all. -/
theorem backoff_429_bounded :
    (∀ (responses : Nat → HttpOutcome) (pageId : String) (valid : Bool),
        (fetchRevisionHistory responses pageId valid).2.2 <+:
          ((List.range maxRetries).map fun a => 2 ^ a * 1000)) ∧
    fetchRevisionHistory (fun _ => .httpError 429) "rec" true
      = (.failure (some 429), true, [1000, 2000, 4000]) ∧
    (∀ (error : LimiterError) (retryCount : Nat),
        (error.responseStatus = some 429 ∨ error.statusCode = some 429) →
          limiterOnFailed error retryCount = some ((retryCount + 1) * 2000)) ∧
    (∀ (error : LimiterError) (retryCount : Nat),
        error.responseStatus ≠ some 429 → error.statusCode ≠ some 429 →
          limiterOnFailed error retryCount = none) := by
  refine ⟨?_, ?_, ?_, ?_⟩
  · intro responses pageId valid
    have h := fetch_delays_aux responses pageId valid (maxRetries + 1) 0 (by omega)
    simpa [fetchRevisionHistory] using h
  · simp [fetchRevisionHistory, fetchRevisionHistoryGo, maxRetries]
  · intro error retryCount h
    simp [limiterOnFailed, h]
  · intro error retryCount h1 h2
    simp [limiterOnFailed, h1, h2]

/-- Witness for the amended claim C5 at a concrete input: the limiter
handler grants the first 429 retry after 2000 ms. -/
theorem backoff_429_bounded_witness :
    limiterOnFailed err429Axios 0 = some ((0 + 1) * 2000) :=
  backoff_429_bounded.2.2.1 err429Axios 0 (Or.inl rfl)

/-- Claim C8: a record fetch whose request answers HTTP 404 returns the
empty event list without raising an error (and without touching the
cookie store). -/
theorem fetch_404_empty :
    ∀ (responses : Nat → HttpOutcome) (pageId : String) (retryCount : Nat) (valid : Bool),
      responses retryCount = .httpError 404 →
        fetchRevisionHistoryGo responses pageId retryCount valid = (.success [], valid, []) := by
  intro responses pageId retryCount valid h
  unfold fetchRevisionHistoryGo
  rw [h]
  simp

/-- Witness for claim C8 at a concrete input. -/
theorem fetch_404_empty_witness :
    fetchRevisionHistoryGo (fun _ => .httpError 404) "rec404" 0 true
      = (.success [], true, []) :=
  fetch_404_empty (fun _ => .httpError 404) "rec404" 0 true rfl

/-! ## Lemmas about the orchestrator -/

/-- A settled batch containing a `COOKIES_EXPIRED` rejection makes the
result-analysis loop abort. -/
theorem resultsLoop_abort :
    ∀ (settled : List Settled) (c : Counters) (ops : List RevDoc),
      (∃ pid, Settled.rejectedExpired pid ∈ settled) →
        ∃ cAbort, resultsLoop settled c ops = .inr cAbort := by
  intro settled
  induction settled with
  | nil =>
    intro c ops h
    obtain ⟨pid, h⟩ := h
    simp at h
  | cons s rest ih =>
    intro c ops h
    obtain ⟨pid, h⟩ := h
    cases s with
    | ok pageId baseId tableId revisions isUpdate isNew =>
      rcases List.mem_cons.mp h with h' | h'
      · exact absurd h' (by simp)
      · exact ih _ _ ⟨pid, h'⟩
    | okNoHistory p =>
      rcases List.mem_cons.mp h with h' | h'
      · exact absurd h' (by simp)
      · exact ih _ _ ⟨pid, h'⟩
    | fail p st =>
      rcases List.mem_cons.mp h with h' | h'
      · exact absurd h' (by simp)
      · exact ih _ _ ⟨pid, h'⟩
    | rejectedExpired p =>
      exact ⟨_, rfl⟩

/-! ## Lemmas about the keyed revision store -/

/-- Replacing the (unique, by `Nodup` keys) document with the key of `d`
leaves exactly `[d]` under that key. -/
theorem filter_map_replace (d : RevDoc) :
    ∀ (s : List RevDoc), (s.map RevDoc.pageId).Nodup →
      s.any (fun e => e.pageId == d.pageId) = true →
      ((s.map fun e => if e.pageId == d.pageId then d else e).filter
        (fun e => e.pageId == d.pageId)) = [d] := by
  intro s
  induction s with
  | nil =>
    intro _ h
    simp at h
  | cons e s ih =>
    intro hnd hany
    have hnd' : (s.map RevDoc.pageId).Nodup := (List.nodup_cons.mp (by simpa using hnd)).2
    by_cases he : (e.pageId == d.pageId) = true
    · have hkey : e.pageId = d.pageId := beq_iff_eq.mp he
      have hnotin : e.pageId ∉ s.map RevDoc.pageId :=
        (List.nodup_cons.mp (by simpa using hnd)).1
      have htail : ∀ x ∈ s, (x.pageId == d.pageId) = false := by
        intro x hx
        rw [beq_eq_false_iff_ne]
        intro hxk
        exact hnotin (List.mem_map.mpr ⟨x, hx, by rw [hxk, hkey]⟩)
      have htailfilter :
          ((s.map fun e => if e.pageId == d.pageId then d else e).filter
            (fun e => e.pageId == d.pageId)) = [] := by
        rw [List.filter_eq_nil_iff]
        intro y hy
        obtain ⟨x, hx, rfl⟩ := List.mem_map.mp hy
        simp [htail x hx]
      simp only [List.map_cons]
      rw [if_pos he]
      rw [List.filter_cons, if_pos (by simp : (d.pageId == d.pageId) = true)]
      rw [htailfilter]
    · have hany' : s.any (fun e => e.pageId == d.pageId) = true := by
        rcases List.any_eq_true.mp hany with ⟨x, hx, hxp⟩
        rcases List.mem_cons.mp hx with rfl | hx'
        · exact absurd hxp (by simpa using he)
        · exact List.any_eq_true.mpr ⟨x, hx', hxp⟩
      have he' : (e.pageId == d.pageId) = false := by simpa using he
      simp only [List.map_cons, he', if_false, List.filter_cons, Bool.false_eq_true,
        if_neg, reduceIte]
      exact ih hnd' hany'

/-- Upserting `d` into a store with duplicate-free keys leaves exactly
`[d]` under the key of `d`. -/
theorem filter_upsert (s : List RevDoc) (d : RevDoc) (hnd : (s.map RevDoc.pageId).Nodup) :
    (upsertRevisionDoc s d).filter (fun e => e.pageId == d.pageId) = [d] := by
  unfold upsertRevisionDoc
  split
  · rename_i hany
    exact filter_map_replace d s hnd hany
  · rename_i hany
    have hany' : s.any (fun e => e.pageId == d.pageId) = false := by
      simpa using hany
    have h1 : s.filter (fun e => e.pageId == d.pageId) = [] := by
      rw [List.filter_eq_nil_iff]
      intro a ha
      have := List.any_eq_false.mp hany' a ha
      simp [this]
    rw [List.filter_append, h1]
    simp

/-- Upserting preserves duplicate-freeness of the keys. -/
theorem upsert_keys_nodup (s : List RevDoc) (d : RevDoc)
    (hnd : (s.map RevDoc.pageId).Nodup) :
    ((upsertRevisionDoc s d).map RevDoc.pageId).Nodup := by
  unfold upsertRevisionDoc
  split
  · rename_i hany
    have hkeys : (s.map fun e => if e.pageId == d.pageId then d else e).map RevDoc.pageId
        = s.map RevDoc.pageId := by
      rw [List.map_map]
      apply List.map_congr_left
      intro e he
      by_cases h : (e.pageId == d.pageId) = true
      · simp only [Function.comp_apply, if_pos h]
        exact (beq_iff_eq.mp h).symm
      · simp only [Function.comp_apply, if_neg h]
    rw [hkeys]
    exact hnd
  · rename_i hany
    have hany' : s.any (fun e => e.pageId == d.pageId) = false := by
      simpa using hany
    have hnotin : d.pageId ∉ s.map RevDoc.pageId := by
      intro hmem
      obtain ⟨x, hx, hxk⟩ := List.mem_map.mp hmem
      have := List.any_eq_false.mp hany' x hx
      exact this (by simp [hxk])
    rw [List.map_append]
    simp [List.nodup_append, hnd, hnotin]

/-- The insert-if-absent loop of `POST /revision-history/fetch` never
removes or replaces an existing document. -/
theorem saveActivities_preserves (activities : List Revision) :
    ∀ (store : List RhDoc) (baseId tableId : String) (d : RhDoc),
      d ∈ store → d ∈ saveActivities store activities baseId tableId := by
  induction activities with
  | nil =>
    intro store b t d hd
    simpa [saveActivities] using hd
  | cons a rest ih =>
    intro store b t d hd
    simp only [saveActivities, List.foldl_cons]
    have hstep : d ∈ (if store.any (fun d2 => d2.activity.uuid == a.uuid) then store
        else store ++ [{ activity := a, baseId := b, tableId := t }]) := by
      split
      · exact hd
      · exact List.mem_append_left _ hd
    simpa [saveActivities] using ih _ b t d hstep

/-! ## Claim theorems: credential expiry and the batch job (C1, C10) -/

/-- Claim C1, counterexample: the claim states that every record fetch
receiving HTTP 401 or 403 marks the stored credential blob invalid and
raises `COOKIES_EXPIRED`; but a fetch through
`RevisionHistoryService.fetchRevisionHistory` that receives HTTP 403
rethrows the plain error — it does not raise `COOKIES_EXPIRED` — and
leaves the stored validity flag untouched (still `true`). -/
theorem rhFetch_403_passthrough_cex :
    rhFetchRevisionHistory (.err (some 403)) "rec0" 0 true = (.failure (some 403), true) ∧
      (rhFetchRevisionHistory (.err (some 403)) "rec0" 0 true).1 ≠ .cookiesExpired ∧
      (rhFetchRevisionHistory (.err (some 403)) "rec0" 0 true).2 = true := by
  decide

/-- Claim C1 (amended): the scraping service fetcher marks the stored
blob invalid and raises `COOKIES_EXPIRED` on HTTP 401 and 403, and any
record of a batch raising `COOKIES_EXPIRED` makes
`fetchAllRevisionHistory` abort immediately with the terminal
cookies-expired error, leaving the store untouched by that batch and
processing no further batch; the secondary `RevisionHistoryService`
fetcher, however, raises `COOKIES_EXPIRED` only on HTTP 401, passes 403
through as a plain error, and never updates the stored blob. -/
theorem cookiesExpired_aborts_batch :
    (∀ (responses : Nat → HttpOutcome) (pageId : String) (retryCount : Nat) (valid : Bool)
        (status : Nat), (status = 401 ∨ status = 403) →
        responses retryCount = .httpError status →
          fetchRevisionHistoryGo responses pageId retryCount valid
            = (.cookiesExpired, false, [])) ∧
    (∀ (fetchOut : String → FetchResult) (bulkFails : Nat → Bool) (existing : List String)
        (batch : List PageRef) (rest : List (List PageRef)) (i : Nat) (c : Counters)
        (db : List RevDoc) (p : PageRef), p ∈ batch → fetchOut p.pageId = .cookiesExpired →
        ∃ cAbort, runBatches fetchOut bulkFails existing (batch :: rest) i c db
          = .failed cookiesExpiredMsg cAbort db) ∧
    (∀ (recordId : String) (now : Nat) (valid : Bool),
        rhFetchRevisionHistory (.err (some 401)) recordId now valid
          = (.cookiesExpired, valid)) ∧
    (∀ (status : Option Nat) (recordId : String) (now : Nat) (valid : Bool),
        status ≠ some 401 →
          rhFetchRevisionHistory (.err status) recordId now valid = (.failure status, valid)) := by
  refine ⟨?_, ?_, ?_, ?_⟩
  · intro responses pageId retryCount valid status hst h
    exact fetch_auth_expired_aux responses pageId retryCount valid status hst h
  · intro fetchOut bulkFails existing batch rest i c db p hp hfetch
    have hsettle : settleRecord fetchOut existing p = .rejectedExpired p.pageId := by
      simp [settleRecord, hfetch]
    have hmem : Settled.rejectedExpired p.pageId ∈ batch.map (settleRecord fetchOut existing) :=
      hsettle ▸ List.mem_map_of_mem (settleRecord fetchOut existing) hp
    obtain ⟨cAbort, habort⟩ := resultsLoop_abort _ c [] ⟨p.pageId, hmem⟩
    refine ⟨cAbort, ?_⟩
    simp only [runBatches]
    rw [habort]
  · intro recordId now valid
    simp [rhFetchRevisionHistory]
  · intro status recordId now valid h
    simp [rhFetchRevisionHistory, h]

/-- Witness for the amended claim C1 at a concrete input: a batch in
which record `recC` raises `COOKIES_EXPIRED` ends the job in the failed
state with the cookies-expired message. -/
theorem cookiesExpired_aborts_batch_witness :
    ∃ cAbort, runBatches expiringFetch (fun _ => false) [] [[pageA, pageC]] 0 zeroCounters []
      = .failed cookiesExpiredMsg cAbort [] :=
  cookiesExpired_aborts_batch.2.1 expiringFetch (fun _ => false) [] [pageA, pageC] [] 0
    zeroCounters [] pageC (by decide) (by decide)

/-- Claim C10: a failing per-batch bulk write is swallowed — the run
outcome (completed/failed) and every counter, in particular `errors`,
are the same whatever the bulk writes do, so the job proceeds and can
finish normally while the fetched events of the failing batch are simply
not persisted.  The second conjunct shows a concrete one-batch job whose
fetch succeeds with an event but whose bulk write throws: the job
completes with zero errors and an unchanged (empty) store. -/
theorem bulk_write_failure_swallowed :
    (∀ (fetchOut : String → FetchResult) (existing : List String)
        (batches : List (List PageRef)) (i : Nat) (c : Counters) (db1 db2 : List RevDoc)
        (bulkFails1 bulkFails2 : Nat → Bool),
        jobOutcome (runBatches fetchOut bulkFails1 existing batches i c db1)
          = jobOutcome (runBatches fetchOut bulkFails2 existing batches i c db2)) ∧
    fetchAllRevisionHistoryModel (fun _ => .success [sampleRevision]) (fun _ => true) [] [pageA] 5
      = .completed ⟨1, 1, 0, 0, 1, 0⟩ [] := by
  constructor
  · intro fetchOut existing batches
    induction batches with
    | nil =>
      intro i c db1 db2 bf1 bf2
      rfl
    | cons batch rest ih =>
      intro i c db1 db2 bf1 bf2
      simp only [runBatches]
      cases hres : resultsLoop (batch.map (settleRecord fetchOut existing)) c [] with
      | inl pair =>
        obtain ⟨c', ops⟩ := pair
        exact ih (i + 1) c' _ _ bf1 bf2
      | inr cAbort =>
        rfl
  · decide

/-! ## Claim theorems: persistence (C6) and the start-sync route (C7) -/

/-- Claim C6, counterexample: the claim states that upserting event set
S1 and then event set S2 for the same record leaves exactly S2 stored;
but the save loop of `POST /revision-history/fetch` stores per-activity
documents keyed by uuid and only inserts when the uuid is absent, so
after saving `[activityV1]` and then `[activityV2]` (same uuid `r-0`,
different values) the store still holds only the S1 document — S2 is
never written. -/
theorem uuid_insert_no_replace_cex :
    saveActivities (saveActivities [] [activityV1] "b" "t") [activityV2] "b" "t"
      = [{ activity := activityV1, baseId := "b", tableId := "t" }] := by
  decide

/-- Claim C6 (amended): the scraping persistence paths
(`findOneAndUpdate` by `pageId` and the `bulkWrite` upsert operations,
both modelled by `upsertRevisionDoc`) are idempotent full replaces — on
a store with duplicate-free keys, upserting S1 and then S2 for the same
`recordId` leaves exactly the S2 document as the single entry under that
key, and the keys stay duplicate-free; the `POST /revision-history/fetch`
route instead inserts per-activity documents by uuid and never replaces
an existing document. -/
theorem upsert_full_replace_amended :
    (∀ (store : List RevDoc) (p : String) (d1 d2 : RevDoc),
        d1.pageId = p → d2.pageId = p → (store.map RevDoc.pageId).Nodup →
          ((upsertRevisionDoc (upsertRevisionDoc store d1) d2).filter
              (fun e => e.pageId == p) = [d2]) ∧
            ((upsertRevisionDoc (upsertRevisionDoc store d1) d2).map RevDoc.pageId).Nodup) ∧
    (∀ (store : List RhDoc) (activities : List Revision) (baseId tableId : String) (d : RhDoc),
        d ∈ store → d ∈ saveActivities store activities baseId tableId) := by
  constructor
  · intro store p d1 d2 h1 h2 hnd
    subst h2
    have hnd1 := upsert_keys_nodup store d1 hnd
    exact ⟨filter_upsert _ d2 hnd1, upsert_keys_nodup _ d2 hnd1⟩
  · intro store activities baseId tableId d hd
    exact saveActivities_preserves activities store baseId tableId d hd

/-- Witness for the amended claim C6 at a concrete input. -/
theorem upsert_full_replace_amended_witness :
    ((upsertRevisionDoc (upsertRevisionDoc [] docS1) docS2).filter
        (fun e => e.pageId == "rec1") = [docS2]) ∧
      ((upsertRevisionDoc (upsertRevisionDoc [] docS1) docS2).map RevDoc.pageId).Nodup :=
  upsert_full_replace_amended.1 [] "rec1" docS1 docS2 rfl rfl (by decide)

/-- Claim C7, counterexample: the claim states that a start-sync request
made while a job is running is rejected with a conflict unless a
force-restart override is supplied; but for two concrete consecutive
`POST /fetch-all-revisions` requests the second one — issued while the
first background run is in flight — is also answered with success
(HTTP 200, no conflict), and afterwards two runs are in flight at once. -/
theorem start_sync_no_conflict_cex :
    runStartRequests [{ batchSize := none }, { batchSize := none }] 0
      = ([{ status := 200, success := true }, { status := 200, success := true }], 2) := by
  decide

/-- Claim C7 (amended): the `POST /fetch-all-revisions` handler performs
no single-flight check — every request immediately receives a success
reply (HTTP 200) and starts one more concurrent background run of
`fetchAllRevisionHistory`; there is no conflict response, no job
registry, and no force-restart override in the request body. -/
theorem start_sync_always_starts :
    ∀ (requests : List FetchAllBody) (runningJobs : Nat),
      (runStartRequests requests runningJobs).2 = runningJobs + requests.length ∧
        (runStartRequests requests runningJobs).1
          = requests.map fun _ => { status := 200, success := true } := by
  intro requests
  induction requests with
  | nil =>
    intro n
    simp [runStartRequests]
  | cons b rest ih =>
    intro n
    obtain ⟨ih1, ih2⟩ := ih (n + 1)
    refine ⟨?_, ?_⟩
    · simp only [runStartRequests, fetchAllRevisionsRoute, ih1, List.length_cons]
      omega
    · simp only [runStartRequests, fetchAllRevisionsRoute, ih2, List.map_cons]
